import Mathlib

/-!
# A shallow embedding of the `dissect` interpreter core

This file embeds, in Lean 4, the parts of the `dissect` schema interpreter
(Go) that the specification claims under scrutiny are about:

* the typed runtime value model of `values.go` (`asBool`, `asInt`, `asUint`,
  `asReal`, the arithmetic / comparison methods, `divide` / `modulo`);
* the expression evaluator of `eval.go` (`eval`, `evalLogical`,
  `evalRelational`, `evalArithmetic`, `evalUnary`, `evalMember`, ...);
* the decoder pieces of `decode.go` used by the claims (`decodeBlock`'s
  statement dispatch, `decodeBreak` / `decodeContinue`, `decodeRepeat` /
  `evalRepeatUint`, `evalPoint`, `swapBytes`, `numbytes`, `btoi`,
  `decodeNumber`);
* the scanner pieces of `scan.go` (`readRune`, `skipBlank`, `scanText`,
  `scanComment`);
* the pratt expression parser of `parse.go` (`parseExpression`,
  `parsePrefix`, `parseInfix`, `parseTernary`, `parseAssign`).

Modelling conventions.  Go's `int64` is embedded as `Int` reduced with
`wrap64` wherever overflow can occur, `uint64` as `Nat` reduced mod `2^64`.
Go's IEEE-754 `float64` is embedded as `Rat`; the claims settled here never
depend on IEEE rounding (the pointpair claim never reaches an arithmetic
float operation, and division totality is about integers).  A Go function
that can panic at runtime (integer division by zero) is embedded with the
`Outcome` type below, whose `panic` constructor marks the Go runtime panic;
a plain `(Value, error)` return is `ok` / `error`.  Go's `nil` `Value`
interface (produced by `evalBinary`'s `Assign` case) is the `nilv`
constructor; Go type switches send it to their `default` branch, which the
corresponding Lean matches mirror.
-/

namespace Dissect

/-- Reduce an unbounded integer to Go `int64` two's-complement wrap-around. -/
def wrap64 (x : Int) : Int := (x + 2 ^ 63) % 2 ^ 64 - 2 ^ 63

/-- Go conversion `uint64(i)` of an `int64` value: the same 64-bit pattern. -/
def toU64 (i : Int) : Nat := (i % 2 ^ 64).toNat

/-- Truncation of a rational toward zero, Go's conversion `int64(f)` for a
`float64` in range (for out-of-range inputs Go leaves the result
platform-specific; the embedding wraps, and no claim exercises that case). -/
def ratTrunc (q : Rat) : Int := q.num.tdiv q.den

/-- Errors returned (as Go `error` values) by the embedded functions. -/
inductive VErr where
  | incompatible                       -- values.go ErrIncompatible
  | unsupported                        -- values.go ErrUnsupported
  | notDefined (name : String)         -- "%s: value not defined"
  | unknownAttribute (attr : String)   -- eval.go "unknown attribute %s"
  | unknownInternal (name : String)    -- "%s: unknown internal value"
  | unsupportedUnaryOp                 -- "unsupported unary operator"
  | unsupportedLogicalOp               -- "unsupported logical operator"
  | unsupportedRelationalOp
  | unsupportedArithmeticOp
  | unsupportedBitwiseOp
  | unsupportedExprType
  | unsupportedTokenType
  | parseIntError (lit : String)       -- strconv.ParseInt failure
  | parseFloatError (lit : String)     -- strconv.ParseFloat failure
  | parseBoolError (lit : String)      -- strconv.ParseBool failure
  | shortBuffer                        -- decode.go errShort
  deriving DecidableEq, Repr

/-- Result of running an embedded Go computation: a normal `(value, nil)`
return is `ok`, a `(nil, err)` return is `error`, and a Go runtime panic
(integer division by zero) is `panic`. -/
inductive Outcome (α : Type) where
  | panic : Outcome α
  | error : VErr → Outcome α
  | ok : α → Outcome α

/-- Runtime values (`values.go`).  Each Go value struct embeds a `Meta`
carrying an identifier, a bit offset and an optional engineering value; the
three `Meta` fields are inlined as the first three arguments of every
constructor.  `nilv` is Go's `nil` `Value` interface. -/
inductive RtValue : Type where
  | nilv  : RtValue
  | vnull  (id : String) (pos : Int) (eng : Option RtValue) : RtValue
  | vbool  (id : String) (pos : Int) (eng : Option RtValue) (raw : Bool) : RtValue
  | vint   (id : String) (pos : Int) (eng : Option RtValue) (raw : Int) : RtValue
  | vuint  (id : String) (pos : Int) (eng : Option RtValue) (raw : Nat) : RtValue
  | vreal  (id : String) (pos : Int) (eng : Option RtValue) (raw : Rat) : RtValue
  | vbytes (id : String) (pos : Int) (eng : Option RtValue) (raw : List Nat) : RtValue
  | vstr   (id : String) (pos : Int) (eng : Option RtValue) (raw : String) : RtValue

namespace RtValue

/-- `Meta.String()`: every value renders as its identifier (none of the
concrete value types overrides `String()`). -/
def valueId : RtValue → String
  | nilv => ""
  | vnull i _ _ => i
  | vbool i _ _ _ => i
  | vint i _ _ _ => i
  | vuint i _ _ _ => i
  | vreal i _ _ _ => i
  | vbytes i _ _ _ => i
  | vstr i _ _ _ => i

/-- `Meta.Offset()`: the stored bit offset. -/
def offset : RtValue → Int
  | nilv => 0
  | vnull _ p _ => p
  | vbool _ p _ _ => p
  | vint _ p _ _ => p
  | vuint _ p _ _ => p
  | vreal _ p _ _ => p
  | vbytes _ p _ _ => p
  | vstr _ p _ _ => p

/-- The stored engineering side (`Meta.Eng`). -/
def engRaw : RtValue → Option RtValue
  | nilv => none
  | vnull _ _ e => e
  | vbool _ _ e _ => e
  | vint _ _ e _ => e
  | vuint _ _ e _ => e
  | vreal _ _ e _ => e
  | vbytes _ _ e _ => e
  | vstr _ _ e _ => e

/-- `Meta.eng()`: the engineering value, or a fresh `Null{}` when none is
attached. -/
def engValue (v : RtValue) : RtValue :=
  match v.engRaw with
  | some e => e
  | none => vnull "" 0 none

/-- `Meta.setId`. -/
def setId (s : String) : RtValue → RtValue
  | nilv => nilv
  | vnull _ p e => vnull s p e
  | vbool _ p e r => vbool s p e r
  | vint _ p e r => vint s p e r
  | vuint _ p e r => vuint s p e r
  | vreal _ p e r => vreal s p e r
  | vbytes _ p e r => vbytes s p e r
  | vstr _ p e r => vstr s p e r

/-- `Meta.Set`: attach an engineering value. -/
def setEng (x : RtValue) : RtValue → RtValue
  | nilv => nilv
  | vnull i p _ => vnull i p (some x)
  | vbool i p _ r => vbool i p (some x) r
  | vint i p _ r => vint i p (some x) r
  | vuint i p _ r => vuint i p (some x) r
  | vreal i p _ r => vreal i p (some x) r
  | vbytes i p _ r => vbytes i p (some x) r
  | vstr i p _ r => vstr i p (some x) r

end RtValue

open RtValue

/-- `asInt` (values.go): convert a value to Go `int64`.  The Go type switch
sends every unlisted type (including a `nil` interface) to `default`. -/
def asInt : RtValue → Int
  | .vint _ _ _ r => r
  | .vuint _ _ _ r => wrap64 r
  | .vreal _ _ _ q => wrap64 (ratTrunc q)
  | _ => 0

/-- `asUint` (values.go): convert a value to Go `uint64`. -/
def asUint : RtValue → Nat
  | .vuint _ _ _ r => r
  | .vint _ _ _ r => toU64 r
  | .vreal _ _ _ q => (ratTrunc q % 2 ^ 64).toNat
  | _ => 0

/-- `asReal` (values.go). -/
def asReal : RtValue → Rat
  | .vreal _ _ _ q => q
  | .vuint _ _ _ r => (r : Rat)
  | .vint _ _ _ r => (r : Rat)
  | _ => 0

/-- `asBool` (values.go): the truth value.  Note that `*Real` carries no
case of its own and therefore falls into the `default` branch. -/
def asBool : RtValue → Bool
  | .vbool _ _ _ r => r
  | .vint _ _ _ r => r != 0
  | .vuint _ _ _ r => r != 0
  | .vstr _ _ _ s => s.length > 0
  | .vbytes _ _ _ b => b.length > 0
  | _ => false

/-- Hex encoding of a byte (two lowercase digits), for `hex.EncodeToString`. -/
def hexDigit (n : Nat) : Char :=
  if n < 10 then Char.ofNat (48 + n) else Char.ofNat (87 + n)

/-- `hex.EncodeToString` on a byte list. -/
def hexEncode (bs : List Nat) : String :=
  String.mk (bs.foldr (fun b acc => hexDigit (b / 16 % 16) :: hexDigit (b % 16) :: acc) [])

/-- `asString` (values.go).  Integer formatting matches `strconv.FormatInt`
base 10; the `Real` case abstracts Go's `g` float format as the rational's
textual form (no claim evaluates it). -/
def asString : RtValue → String
  | .vint _ _ _ r => toString r
  | .vuint _ _ _ r => toString r
  | .vreal _ _ _ q => toString q
  | .vbool _ _ _ b => if b then "true" else "false"
  | .vbytes _ _ _ bs => hexEncode bs
  | .vstr _ _ _ s => s
  | _ => ""

/-- `isCompatible` (values.go): both sides must be `Int`, `Uint` or `Real`. -/
def isNumericKind : RtValue → Bool
  | .vint _ _ _ _ => true
  | .vuint _ _ _ _ => true
  | .vreal _ _ _ _ => true
  | _ => false

def isCompatible (l r : RtValue) : Bool := isNumericKind l && isNumericKind r

/-- `null2null` (values.go). -/
def null2null (v : RtValue) : Outcome RtValue :=
  match v with
  | .vnull _ _ _ => .ok v
  | _ => .error .incompatible

/-- `concatValues` (values.go): string concatenation with a zero `Meta`. -/
def concatValues (l r : RtValue) : Outcome RtValue :=
  .ok (.vstr "" 0 none (asString l ++ asString r))

/-- The `add` methods of `values.go`, dispatched on the receiver as Go's
interface dispatch does.  A `nilv` receiver would be a Go nil-pointer
dereference, i.e. a panic. -/
def addV : RtValue → RtValue → Outcome RtValue
  | .nilv, _ => .panic
  | .vnull _ _ _, v => null2null v
  | .vbool _ _ _ _, _ => .error .unsupported
  | l@(.vint i p e r), v =>
    match v with
    | .vstr _ _ _ _ => concatValues l v
    | _ => if isCompatible l v then .ok (.vint i p e (wrap64 (r + asInt v))) else .error .incompatible
  | l@(.vuint i p e r), v =>
    match v with
    | .vstr _ _ _ _ => concatValues l v
    | _ => if isCompatible l v then .ok (.vuint i p e ((r + asUint v) % 2 ^ 64)) else .error .incompatible
  | l@(.vreal i p e r), v =>
    if isCompatible l v then .ok (.vreal i p e (r + asReal v)) else .error .incompatible
  | .vbytes _ _ _ _, _ => .error .unsupported
  | l@(.vstr _ _ _ _), v => concatValues l v

/-- The `subtract` methods of `values.go`. -/
def subtractV : RtValue → RtValue → Outcome RtValue
  | .nilv, _ => .panic
  | .vnull _ _ _, v => null2null v
  | .vbool _ _ _ _, _ => .error .unsupported
  | l@(.vint i p e r), v =>
    if isCompatible l v then .ok (.vint i p e (wrap64 (r - asInt v))) else .error .incompatible
  | l@(.vuint i p e r), v =>
    if isCompatible l v then .ok (.vuint i p e ((2 ^ 64 + r - asUint v % 2 ^ 64) % 2 ^ 64)) else .error .incompatible
  | l@(.vreal i p e r), v =>
    if isCompatible l v then .ok (.vreal i p e (r - asReal v)) else .error .incompatible
  | .vbytes _ _ _ _, _ => .error .unsupported
  | .vstr _ _ _ _, _ => .error .unsupported

/-- The `multiply` methods of `values.go`. -/
def multiplyV : RtValue → RtValue → Outcome RtValue
  | .nilv, _ => .panic
  | .vnull _ _ _, v => null2null v
  | .vbool _ _ _ _, _ => .error .unsupported
  | l@(.vint i p e r), v =>
    if isCompatible l v then .ok (.vint i p e (wrap64 (r * asInt v))) else .error .incompatible
  | l@(.vuint i p e r), v =>
    if isCompatible l v then .ok (.vuint i p e ((r * asUint v) % 2 ^ 64)) else .error .incompatible
  | l@(.vreal i p e r), v =>
    if isCompatible l v then .ok (.vreal i p e (r * asReal v)) else .error .incompatible
  | .vbytes _ _ _ _, _ => .error .unsupported
  | .vstr _ _ _ _, _ => .error .unsupported

/-- The `divide` methods of `values.go`.  `Int.divide` runs `x.Raw /=
asInt(v)` and `Uint.divide` runs `x.Raw /= asUint(v)` with no zero test, so
a zero (converted) divisor is a Go runtime panic; `-2^63 / -1` wraps as the
Go spec prescribes.  `Real.divide` is IEEE division, embedded on `Rat` (a
zero real divisor yields Go `Inf`, outside the rational model; no claim
evaluates it). -/
def divideV : RtValue → RtValue → Outcome RtValue
  | .nilv, _ => .panic
  | .vnull _ _ _, v => null2null v
  | .vbool _ _ _ _, _ => .error .unsupported
  | l@(.vint i p e r), v =>
    if isCompatible l v then
      if asInt v = 0 then .panic
      else .ok (.vint i p e (wrap64 (r.tdiv (asInt v))))
    else .error .incompatible
  | l@(.vuint i p e r), v =>
    if isCompatible l v then
      if asUint v = 0 then .panic
      else .ok (.vuint i p e (r / asUint v))
    else .error .incompatible
  | l@(.vreal i p e r), v =>
    if isCompatible l v then .ok (.vreal i p e (r / asReal v)) else .error .incompatible
  | .vbytes _ _ _ _, _ => .error .unsupported
  | .vstr _ _ _ _, _ => .error .unsupported

/-- The `modulo` methods of `values.go`: like `divide` but with `%=`; note
`Real.modulo` is `ErrUnsupported` in the source. -/
def moduloV : RtValue → RtValue → Outcome RtValue
  | .nilv, _ => .panic
  | .vnull _ _ _, v => null2null v
  | .vbool _ _ _ _, _ => .error .unsupported
  | l@(.vint i p e r), v =>
    if isCompatible l v then
      if asInt v = 0 then .panic
      else .ok (.vint i p e (r.tmod (asInt v)))
    else .error .incompatible
  | l@(.vuint i p e r), v =>
    if isCompatible l v then
      if asUint v = 0 then .panic
      else .ok (.vuint i p e (r % asUint v))
    else .error .incompatible
  | .vreal _ _ _ _, _ => .error .unsupported
  | .vbytes _ _ _ _, _ => .error .unsupported
  | .vstr _ _ _ _, _ => .error .unsupported

/-- The `reverse` (unary minus) methods of `values.go`. -/
def reverseV : RtValue → Outcome RtValue
  | .nilv => .panic
  | v@(.vnull _ _ _) => .ok v
  | .vbool _ _ _ _ => .error .unsupported
  | .vint i p e r => .ok (.vint i p e (wrap64 (-r)))
  | .vuint _ _ _ _ => .error .unsupported
  | .vreal i p e r => .ok (.vreal i p e (-r))
  | .vbytes _ _ _ _ => .error .unsupported
  | .vstr _ _ _ _ => .error .unsupported

/-- Go shift semantics on a 64-bit pattern: shifts of 64 or more clear. -/
def goShl64 (x : Nat) (k : Nat) : Nat := (x * 2 ^ k) % 2 ^ 64

/-- The `leftshift` methods of `values.go`. -/
def leftshiftV : RtValue → RtValue → Outcome RtValue
  | .nilv, _ => .panic
  | .vnull _ _ _, v => null2null v
  | .vbool _ _ _ _, _ => .error .unsupported
  | l@(.vint i p e r), v =>
    if isCompatible l v then
      if asInt v < 0 then .panic
      else .ok (.vint i p e (wrap64 (toU64 r * 2 ^ (asInt v).toNat)))
    else .error .incompatible
  | l@(.vuint i p e r), v =>
    if isCompatible l v then .ok (.vuint i p e (goShl64 r (asUint v))) else .error .incompatible
  | .vreal _ _ _ _, _ => .error .unsupported
  | .vbytes _ _ _ _, _ => .error .unsupported
  | .vstr _ _ _ _, _ => .error .unsupported

/-- The `rightshift` methods of `values.go` (arithmetic for `Int`). -/
def rightshiftV : RtValue → RtValue → Outcome RtValue
  | .nilv, _ => .panic
  | .vnull _ _ _, v => null2null v
  | .vbool _ _ _ _, _ => .error .unsupported
  | l@(.vint i p e r), v =>
    if isCompatible l v then
      if asInt v < 0 then .panic
      else .ok (.vint i p e (r >>> (asInt v).toNat))
    else .error .incompatible
  | l@(.vuint i p e r), v =>
    if isCompatible l v then .ok (.vuint i p e (r >>> asUint v)) else .error .incompatible
  | .vreal _ _ _ _, _ => .error .unsupported
  | .vbytes _ _ _ _, _ => .error .unsupported
  | .vstr _ _ _ _, _ => .error .unsupported

/-- The `and` (bitwise) methods of `values.go`. -/
def bitandV : RtValue → RtValue → Outcome RtValue
  | .nilv, _ => .panic
  | .vnull _ _ _, v => null2null v
  | .vbool _ _ _ _, _ => .error .unsupported
  | l@(.vint i p e r), v =>
    if isCompatible l v then .ok (.vint i p e (wrap64 (Nat.land (toU64 r) (toU64 (asInt v))))) else .error .incompatible
  | l@(.vuint i p e r), v =>
    if isCompatible l v then .ok (.vuint i p e (Nat.land r (asUint v))) else .error .incompatible
  | .vreal _ _ _ _, _ => .error .unsupported
  | .vbytes _ _ _ _, _ => .error .unsupported
  | .vstr _ _ _ _, _ => .error .unsupported

/-- The `or` (bitwise) methods of `values.go`. -/
def bitorV : RtValue → RtValue → Outcome RtValue
  | .nilv, _ => .panic
  | .vnull _ _ _, v => null2null v
  | .vbool _ _ _ _, _ => .error .unsupported
  | l@(.vint i p e r), v =>
    if isCompatible l v then .ok (.vint i p e (wrap64 (Nat.lor (toU64 r) (toU64 (asInt v))))) else .error .incompatible
  | l@(.vuint i p e r), v =>
    if isCompatible l v then .ok (.vuint i p e (Nat.lor r (asUint v))) else .error .incompatible
  | .vreal _ _ _ _, _ => .error .unsupported
  | .vbytes _ _ _ _, _ => .error .unsupported
  | .vstr _ _ _ _, _ => .error .unsupported

/-- `bytes.Compare` on byte lists. -/
def bytesCmp : List Nat → List Nat → Int
  | [], [] => 0
  | [], _ :: _ => -1
  | _ :: _, [] => 1
  | a :: as, b :: bs => if a < b then -1 else if a > b then 1 else bytesCmp as bs

/-- `strings.Compare`. -/
def stringsCmp (a b : String) : Int := if a < b then -1 else if a = b then 0 else 1

/-- The `Cmp` methods of `values.go`.  `none` marks the nil-receiver panic. -/
def cmpV : RtValue → RtValue → Option Int
  | .nilv, _ => none
  | .vnull _ _ _, v => some (match v with | .vnull _ _ _ => 0 | _ => -1)
  | .vbool _ _ _ b, v =>
    some (match v with
      | .vbool _ _ _ o => if o = b then 0 else if b = false then -1 else 1
      | _ => -1)
  | .vint _ _ _ r, v => some (if r > asInt v then 1 else if r < asInt v then -1 else 0)
  | .vuint _ _ _ r, v => some (if r > asUint v then 1 else if r < asUint v then -1 else 0)
  | .vreal _ _ _ r, v => some (if r > asReal v then 1 else if r < asReal v then -1 else 0)
  | .vbytes _ _ _ b, v => some (match v with | .vbytes _ _ _ o => bytesCmp b o | _ => -1)
  | .vstr _ _ _ s, v => some (match v with | .vstr _ _ _ o => stringsCmp s o | _ => -1)

/-! ## Tokens (`dissect.go`)

Token kinds are the `rune` constants `EOF = -1`, `Ident = -2`, ... of
`dissect.go`; ordinary characters are their own (positive) code points, as
in the Go source.  The embedding keeps them as `Int`. -/

def tEOF : Int := -1
def tIdent : Int := -2
def tText : Int := -3
def tKeyword : Int := -4
def tInternal : Int := -5
def tInteger : Int := -6
def tFloat : Int := -7
def tBool : Int := -8
def tComment : Int := -9
def tAssign : Int := -10
def tEqual : Int := -11
def tNotEq : Int := -12
def tLesser : Int := -13
def tLessEq : Int := -14
def tGreater : Int := -15
def tGreatEq : Int := -16
def tAdd : Int := -17
def tMul : Int := -18
def tDiv : Int := -19
def tMin : Int := -20
def tModulo : Int := -21
def tAnd : Int := -22
def tOr : Int := -23
def tNot : Int := -24
def tCond : Int := -25
def tShiftLeft : Int := -26
def tShiftRight : Int := -27
def tBitAnd : Int := -28
def tBitOr : Int := -29
def tNewline : Int := -30
def tIllegal : Int := -31

/-- Source position (`Position` of `dissect.go`). -/
structure Position where
  line : Nat
  column : Nat
  deriving DecidableEq, Repr

/-- A scanner token (`Token` of `dissect.go`). -/
structure Tok where
  lit : String
  type : Int
  pos : Position
  deriving DecidableEq, Repr

/-- `Token.String()` (`dissect.go`): operator glyphs, literals by their
text, other kinds by their character. -/
def tokString (t : Tok) : String :=
  if t.type = tEOF then "eof"
  else if t.type = tShiftLeft then "<<"
  else if t.type = tShiftRight then ">>"
  else if t.type = tBitOr then "|"
  else if t.type = tBitAnd then "&"
  else if t.type = tCond then "?:"
  else if t.type = tAdd then "+"
  else if t.type = tMin then "-"
  else if t.type = tMul then "*"
  else if t.type = tDiv then "/"
  else if t.type = tModulo then "%"
  else if t.type = tAnd then "&&"
  else if t.type = tOr then "||"
  else if t.type = tAssign then "="
  else if t.type = tNot then "!"
  else if t.type = tEqual then "=="
  else if t.type = tNotEq then "!="
  else if t.type = tLesser then "<"
  else if t.type = tLessEq then "<="
  else if t.type = tGreater then ">"
  else if t.type = tGreatEq then ">="
  else if t.type = tIdent || t.type = tText || t.type = tFloat || t.type = tInteger
       || t.type = tBool || t.type = tKeyword || t.type = tInternal then t.lit
  else String.mk [Char.ofNat t.type.toNat]

/-! ## Literal parsing (`strconv`, as used by `eval.go` and `decode.go`)

The scanner emits integer tokens that are either plain decimal or
`0x`-prefixed hexadecimal, float tokens of the shape `digits[.digits][e[-]digits]`,
and boolean tokens `true` / `false`; the models below cover exactly the
forms `strconv` is handed by this program (underscores and octal/binary
prefixes never reach it). -/

def decDigit (c : Char) : Option Nat :=
  if '0' ≤ c ∧ c ≤ '9' then some (c.toNat - 48) else none

def hexDigitVal (c : Char) : Option Nat :=
  if '0' ≤ c ∧ c ≤ '9' then some (c.toNat - 48)
  else if 'a' ≤ c ∧ c ≤ 'f' then some (c.toNat - 87)
  else if 'A' ≤ c ∧ c ≤ 'F' then some (c.toNat - 55)
  else none

def digitsToNat (dig : Char → Option Nat) (base : Nat) : List Char → Option Nat
  | [] => none
  | cs => cs.foldl (fun acc c =>
      match acc, dig c with
      | some n, some d => some (n * base + d)
      | _, _ => none) (some 0)

/-- `strconv.ParseInt(lit, 0, 64)`: optional sign, `0x` hex or decimal
digits; out-of-range values clamp to the `int64` bounds and report a range
error, which this model folds into `parseIntError` (`evalLiteral` treats
any error as fatal, while the decoder call sites discard it). -/
def goParseInt (s : String) : Except VErr Int :=
  let err : Except VErr Int := .error (.parseIntError s)
  let core : List Char → Option Nat := fun cs =>
    match cs with
    | '0' :: 'x' :: rest => digitsToNat hexDigitVal 16 rest
    | '0' :: 'X' :: rest => digitsToNat hexDigitVal 16 rest
    | _ => digitsToNat decDigit 10 cs
  let signed : List Char → Option Int := fun cs =>
    match cs with
    | '-' :: rest => (core rest).map (fun n => -(n : Int))
    | '+' :: rest => (core rest).map (fun n => (n : Int))
    | _ => (core cs).map (fun n => (n : Int))
  match signed s.data with
  | none => err
  | some v => if v < -(2 ^ 63) ∨ 2 ^ 63 - 1 < v then err else .ok v

/-- `strconv.ParseInt(lit, 0, 64)` with its error discarded, as the decoder
does (`evalPoint`, `decodeMatch`, ...): syntax errors give 0 and range
errors give the clamped bound. -/
def goParseIntLenient (s : String) : Int :=
  let core : List Char → Option Nat := fun cs =>
    match cs with
    | '0' :: 'x' :: rest => digitsToNat hexDigitVal 16 rest
    | '0' :: 'X' :: rest => digitsToNat hexDigitVal 16 rest
    | _ => digitsToNat decDigit 10 cs
  let signed : List Char → Option Int := fun cs =>
    match cs with
    | '-' :: rest => (core rest).map (fun n => -(n : Int))
    | '+' :: rest => (core rest).map (fun n => (n : Int))
    | _ => (core cs).map (fun n => (n : Int))
  match signed s.data with
  | none => 0
  | some v => if v < -(2 ^ 63) then -(2 ^ 63) else if 2 ^ 63 - 1 < v then 2 ^ 63 - 1 else v

/-- `strconv.ParseFloat(lit, 64)` on the scanner's float forms, as an exact
rational (IEEE rounding abstracted; no settled claim depends on it). -/
def goParseFloat (s : String) : Except VErr Rat :=
  let err : Except VErr Rat := .error (.parseFloatError s)
  let split : List Char → List Char × List Char × List Char := fun cs =>
    let mant := cs.takeWhile (fun c => c ≠ 'e' ∧ c ≠ 'E')
    let ex := (cs.dropWhile (fun c => c ≠ 'e' ∧ c ≠ 'E')).drop 1
    let ip := mant.takeWhile (fun c => c ≠ '.')
    let fp := (mant.dropWhile (fun c => c ≠ '.')).drop 1
    (ip, fp, ex)
  let conv : List Char → Option Rat := fun cs =>
    let (ip, fp, ex) := split cs
    let ipv := digitsToNat decDigit 10 ip
    let fpv := if fp.isEmpty then some 0 else digitsToNat decDigit 10 fp
    let exv : Option Int :=
      if ex.isEmpty then some 0 else
      match ex with
      | '-' :: rest => (digitsToNat decDigit 10 rest).map (fun n => -(n : Int))
      | '+' :: rest => (digitsToNat decDigit 10 rest).map (fun n => (n : Int))
      | _ => (digitsToNat decDigit 10 ex).map (fun n => (n : Int))
    match ipv, fpv, exv with
    | some i, some f, some e =>
      let scale : Rat := if 0 ≤ e then (10 : Rat) ^ e.toNat else 1 / (10 : Rat) ^ (-e).toNat
      some (((i : Rat) + (f : Rat) / ((10 : Rat) ^ fp.length)) * scale)
    | _, _, _ => none
  match s.data with
  | '-' :: rest => match conv rest with | some q => .ok (-q) | none => err
  | '+' :: rest => match conv rest with | some q => .ok q | none => err
  | cs => match conv cs with | some q => .ok q | none => err

/-- `strconv.ParseBool`. -/
def goParseBool (s : String) : Except VErr Bool :=
  if s = "1" ∨ s = "t" ∨ s = "T" ∨ s = "TRUE" ∨ s = "true" ∨ s = "True" then .ok true
  else if s = "0" ∨ s = "f" ∨ s = "F" ∨ s = "FALSE" ∨ s = "false" ∨ s = "False" then .ok false
  else .error (.parseBoolError s)

/-! ## Expressions (`nodes.go`) and the evaluator (`eval.go`) -/

/-- Expression nodes (`nodes.go`).  `enil` is Go's `nil` `Expression`,
which `eval` maps to `Null{}` (`break` / `continue` without a predicate
carry it). -/
inductive Expr : Type where
  | enil : Expr
  | lit (id : Tok) : Expr
  | ident (id : Tok) : Expr
  | member (ref attr : Tok) : Expr
  | unary (op : Int) (right : Expr) : Expr
  | binary (op : Int) (left right : Expr) : Expr
  | ternary (cond csq alt : Expr) : Expr
  | assign (left : Tok) (right : Expr) : Expr
  deriving DecidableEq, Repr

/-- `isBoolean` (`nodes.go`): `Binary` with a comparison or logical
operator, `Unary` with `Not`, and `Ternary` are boolean-producing. -/
def Expr.isBoolean : Expr → Bool
  | .binary op _ _ =>
    op = tEqual || op = tNotEq || op = tLesser || op = tGreater || op = tLessEq
      || op = tGreatEq || op = tAnd || op = tOr
  | .unary op _ => op = tNot
  | .ternary _ _ _ => true
  | _ => false

/-- Decoder-local state (`state` of `decode.go`), restricted to the fields
the embedded functions read or write.  `now` threads the host clock that Go
reads with `time.Now()` in `ResolveInternal`. -/
structure DState where
  values : List RtValue
  pos : Int
  loop : Int
  blocks : List String
  currentFile : String
  buffer : List Nat
  now : Int

/-- `state.Size()`: buffered size in bits. -/
def DState.size (st : DState) : Int := st.buffer.length * 8

/-- `state.currentBlock()`. -/
def DState.currentBlock (st : DState) : String :=
  match st.blocks.getLast? with
  | some b => b
  | none => ""

/-- `state.path()`. -/
def DState.path (st : DState) : String :=
  "/" ++ String.intercalate "/" st.blocks

/-- The backwards search of `state.ResolveValue`: the last value whose
identifier matches wins. -/
def resolveLast : List RtValue → String → Option RtValue
  | [], _ => none
  | v :: rest, n =>
    match resolveLast rest n with
    | some r => some r
    | none => if v.valueId = n then some v else none

/-- `state.ResolveValue` (`decode.go`). -/
def resolveValue (st : DState) (n : String) : Outcome RtValue :=
  match resolveLast st.values n with
  | some v => .ok v
  | none => .error (.notDefined n)

/-- `state.ResolveInternal` (`decode.go`): the `$`-variables. -/
def resolveInternal (st : DState) (s : String) : Outcome RtValue :=
  if s = "Loop" then .ok (.vint s 0 none st.loop)
  else if s = "Time" then .ok (.vint s 0 none st.now)
  else if s = "Num" then .ok (.vint s 0 none st.values.length)
  else if s = "Pos" then .ok (.vint s 0 none st.pos)
  else if s = "Size" then .ok (.vint s 0 none st.size)
  else if s = "File" then .ok (.vstr s 0 none st.currentFile)
  else if s = "Block" then
    .ok (.vstr s 0 none (if st.currentBlock = "" then "block" else st.currentBlock))
  else if s = "Path" then .ok (.vstr s 0 none st.path)
  else .error (.unknownInternal s)

/-- `anonymousBool` (`eval.go`). -/
def anonymousBool (ok : Bool) : RtValue := .vbool "anonymous" 0 none ok

/-- `isTrue` (`eval.go`). -/
def isTrue (v : RtValue) : Bool := asBool v

/-- `evalLiteral` (`eval.go`). -/
def evalLiteral (t : Tok) : Outcome RtValue :=
  if t.type = tInteger then
    match goParseInt t.lit with
    | .ok i => .ok (.vint "anonymous" 0 none i)
    | .error e => .error e
  else if t.type = tFloat then
    match goParseFloat t.lit with
    | .ok q => .ok (.vreal "anonymous" 0 none q)
    | .error e => .error e
  else if t.type = tBool then
    match goParseBool t.lit with
    | .ok b => .ok (.vbool "anonymous" 0 none b)
    | .error e => .error e
  else if t.type = tText then
    .ok (.vstr "anonymous" 0 none t.lit)
  else .error .unsupportedTokenType

/-- `evalIdentifier` (`eval.go`): internal tokens route to the built-ins,
all others to the environment. -/
def evalIdentifier (t : Tok) (st : DState) : Outcome RtValue :=
  if t.type ≠ tInternal then resolveValue st t.lit
  else resolveInternal st t.lit

/-- `evalMember` (`eval.go`): looks the field up, then projects the
attribute.  The source handles `raw`, `eng`, `id` and `pos`; every other
attribute — including `len` — takes the `default` branch and errors.  For
`id` the raw string is `Member.String()`, i.e. `ref.attr`. -/
def evalMember (ref attr : Tok) (st : DState) : Outcome RtValue :=
  match evalIdentifier ref st with
  | .panic => .panic
  | .error e => .error e
  | .ok v =>
    if attr.lit = "raw" then .ok v
    else if attr.lit = "eng" then .ok v.engValue
    else if attr.lit = "id" then .ok (.vstr attr.lit 0 none (ref.lit ++ "." ++ attr.lit))
    else if attr.lit = "pos" then .ok (.vint attr.lit 0 none v.offset)
    else .error (.unknownAttribute attr.lit)

/-- `eval` (`eval.go`): the expression dispatcher; `nil` evaluates to
`Null{}`.  Go splits the non-leaf cases into `evalTernary`, `evalBinary`
(dispatching further to `evalRelational`, `evalLogical`, `evalArithmetic`
and `evalBitwise`), `evalUnary` and `evalAssign`; to keep the recursion
structural those helper bodies are inlined here, each under a comment
naming the Go function it translates. -/
def eval : Expr → DState → Outcome RtValue
  | .enil, _ => .ok (.vnull "" 0 none)
  | .ternary c q a, st =>
    -- evalTernary (eval.go): strict condition, lazy branches
    match eval c st with
    | .panic => .panic
    | .error e => .error e
    | .ok v => if isTrue v then eval q st else eval a st
  | .binary op l r, st =>
    -- evalBinary (eval.go): operator dispatch.  `Assign` returns Go's
    -- `(nil, nil)`; `Modulo` is absent from the arithmetic list and so
    -- falls to the bitwise handler, where it errors.
    if op = tEqual ∨ op = tNotEq ∨ op = tLesser ∨ op = tLessEq ∨ op = tGreater ∨ op = tGreatEq then
      -- evalRelational (eval.go): evaluate both sides, compare with Cmp
      match eval l st with
      | .panic => .panic
      | .error e => .error e
      | .ok lv =>
        match eval r st with
        | .panic => .panic
        | .error e => .error e
        | .ok rv =>
          match cmpV lv rv with
          | none => .panic
          | some cmp =>
            if op = tEqual then .ok (anonymousBool (cmp = 0))
            else if op = tNotEq then .ok (anonymousBool (cmp ≠ 0))
            else if op = tLesser then .ok (anonymousBool (cmp < 0))
            else if op = tLessEq then .ok (anonymousBool (cmp = 0 ∨ cmp < 0))
            else if op = tGreater then .ok (anonymousBool (cmp > 0))
            else .ok (anonymousBool (cmp = 0 ∨ cmp > 0))
    else if op = tAnd ∨ op = tOr then
      -- evalLogical (eval.go): evaluates the left operand, then the right
      -- operand, unconditionally, before combining the truth values.
      match eval l st with
      | .panic => .panic
      | .error e => .error e
      | .ok lv =>
        match eval r st with
        | .panic => .panic
        | .error e => .error e
        | .ok rv =>
          if op = tAnd then .ok (anonymousBool (asBool lv && asBool rv))
          else .ok (anonymousBool (asBool lv || asBool rv))
    else if op = tAdd ∨ op = tMul ∨ op = tDiv ∨ op = tMin then
      -- evalArithmetic (eval.go)
      match eval l st with
      | .panic => .panic
      | .error e => .error e
      | .ok lv =>
        match eval r st with
        | .panic => .panic
        | .error e => .error e
        | .ok rv =>
          if op = tAdd then addV lv rv
          else if op = tMin then subtractV lv rv
          else if op = tMul then multiplyV lv rv
          else divideV lv rv
    else if op = tAssign then .ok .nilv
    else
      -- evalBitwise (eval.go)
      match eval l st with
      | .panic => .panic
      | .error e => .error e
      | .ok lv =>
        match eval r st with
        | .panic => .panic
        | .error e => .error e
        | .ok rv =>
          if op = tBitAnd then bitandV lv rv
          else if op = tBitOr then bitorV lv rv
          else if op = tShiftLeft then leftshiftV lv rv
          else if op = tShiftRight then rightshiftV lv rv
          else .error .unsupportedBitwiseOp
  | .unary op r, st =>
    -- evalUnary (eval.go).  Note the Not case returns
    -- anonymousBool(asBool(v)) — the truth value itself, not its negation.
    if op = tNot then
      match eval r st with
      | .panic => .panic
      | .error e => .error e
      | .ok v => .ok (anonymousBool (asBool v))
    else if op = tMin then
      match eval r st with
      | .panic => .panic
      | .error e => .error e
      | .ok v => reverseV v
    else .error .unsupportedUnaryOp
  | .lit t, _ => evalLiteral t
  | .ident t, st => evalIdentifier t st
  | .member rf att, st => evalMember rf att st
  | .assign lft r, st =>
    -- evalAssign (eval.go): evaluate the right side and rename it to the
    -- left identifier.
    match eval r st with
    | .panic => .panic
    | .error e => .error e
    | .ok v => .ok (v.setId (tokString lft))


/-! ## Decoder pieces (`decode.go`) -/

/-- Control-flow signals and errors a decoder step can yield (`decode.go`:
`errBreak`, `errContinue`, `ErrSkip`, `ErrDone`, exit codes, decode errors,
and the runtime-panic marker). `none` at a use site is a normal return. -/
inductive DecSig where
  | brk : DecSig
  | cont : DecSig
  | skip : DecSig
  | done : DecSig
  | exitSig (code : Int) : DecSig
  | errSig (e : VErr) : DecSig
  | panicSig : DecSig
  deriving DecidableEq, Repr

/-- `state.decodeBreak` (`decode.go`): evaluate the predicate (`nil` gives
`Null{}`, hence falsy); a truthy predicate raises `errBreak`, a falsy one
returns normally, an evaluation error propagates. -/
def decodeBreak (e : Expr) (st : DState) : Option DecSig :=
  match eval e st with
  | .panic => some .panicSig
  | .error er => some (.errSig er)
  | .ok v => if isTrue v then some .brk else none

/-- `state.decodeContinue` (`decode.go`). -/
def decodeContinue (e : Expr) (st : DState) : Option DecSig :=
  match eval e st with
  | .panic => some .panicSig
  | .error er => some (.errSig er)
  | .ok v => if isTrue v then some .cont else none

/-- `state.decodeLet` (`decode.go`). -/
def decodeLet (e : Expr) (st : DState) : Outcome RtValue := eval e st

/-- Statement nodes of a block body, restricted to the forms the claims
exercise: `Break`, `Continue` and `Let`.  The remaining cases of
`decodeBlock`'s switch (parameters, prints, nested blocks, ...) drive I/O
and the bit cursor and are not needed by any claim; they are omitted, not
stubbed. -/
inductive DNode where
  | brkN (e : Expr) : DNode
  | contN (e : Expr) : DNode
  | letN (id : Tok) (e : Expr) : DNode
  deriving DecidableEq, Repr

/-- The statement loop of `state.decodeBlock` (`decode.go`), one switch arm
per node.  `Break` and `Continue` arms `return` the signal of
`decodeBreak` / `decodeContinue` directly — whatever it is, including the
normal `nil` return — so the remaining statements of the list are never
reached.  `Let` appends the evaluated value (when non-`nil`) and falls
through to the next statement. -/
def decodeNodes : List DNode → DState → DState × Option DecSig
  | [], st => (st, none)
  | n :: rest, st =>
    match n with
    | .brkN e => (st, decodeBreak e st)
    | .contN e => (st, decodeContinue e st)
    | .letN _ e =>
      match decodeLet e st with
      | .panic => (st, some .panicSig)
      | .error er => (st, some (.errSig er))
      | .ok v =>
        match v with
        | .nilv => decodeNodes rest st
        | _ => decodeNodes rest { st with values := st.values ++ [v] }

/-- A block (`Block` of `nodes.go`), restricted to its name and body. -/
structure DBlock where
  id : Tok
  nodes : List DNode
  deriving DecidableEq, Repr

/-- `state.decodeBlock` (`decode.go`): push the block name, run the
statement list, pop the name (deferred, so it runs on every exit path). -/
def decodeBlock (b : DBlock) (st : DState) : DState × Option DecSig :=
  let st1 := { st with blocks := st.blocks ++ [b.id.lit] }
  let res := decodeNodes b.nodes st1
  ({ res.1 with blocks := res.1.blocks.dropLast }, res.2)

/-- The iteration loop of `state.evalRepeatUint` (`decode.go`).  The body
decoder is the `root.decodeBlock(dat)` closure, abstracted as a state
transformer.  The Go `err` variable persists across `continue`, so a
`continue` raised on the last iteration is returned to the caller. -/
def evalRepeatUintLoop (dec : DState → DState × Option DecSig) :
    Nat → DState × Option DecSig → DState × Option DecSig
  | 0, acc => acc
  | rem + 1, (st, _) =>
    let res := dec st
    match res.2 with
    | none => evalRepeatUintLoop dec rem (res.1, none)
    | some .cont => evalRepeatUintLoop dec rem (res.1, some .cont)
    | some .brk => (res.1, none)
    | some e => (res.1, some e)

/-- `state.evalRepeatUint` (`decode.go`): evaluate the loop expression once,
read it as an unsigned count, bump a zero count to one, and run the body
that many times (`break` exits with `nil`, `continue` skips on). -/
def evalRepeatUint (dec : DState → DState × Option DecSig) (expr : Expr)
    (st : DState) : DState × Option DecSig :=
  match eval expr st with
  | .panic => (st, some .panicSig)
  | .error e => (st, some (.errSig e))
  | .ok v =>
    evalRepeatUintLoop dec (if asUint v = 0 then 1 else asUint v) (st, none)

/-- `state.evalRepeatBool` (`decode.go`): re-evaluate the loop expression
before every iteration and run while it is truthy; fuel bounds the
unfolding, `none` meaning the bound was hit. -/
def evalRepeatBool (dec : DState → DState × Option DecSig) (expr : Expr) :
    Nat → DState → Option (DState × Option DecSig)
  | 0, _ => none
  | f + 1, st =>
    match eval expr st with
    | .panic => some (st, some .panicSig)
    | .error e => some (st, some (.errSig e))
    | .ok v =>
      if isTrue v then
        let res := dec st
        match res.2 with
        | none => evalRepeatBool dec expr f res.1
        | some .cont => evalRepeatBool dec expr f res.1
        | some .brk => some (res.1, none)
        | some e => some (res.1, some e)
      else some (st, none)

/-- `state.decodeRepeat` (`decode.go`): a boolean-producing loop expression
selects `evalRepeatBool`, anything else selects `evalRepeatUint`.  The
resolution of the repeat target to a block (`Block` or `Reference`) is
folded into the body decoder `dec`. -/
def decodeRepeat (fuel : Nat) (dec : DState → DState × Option DecSig)
    (rep : Expr) (st : DState) : Option (DState × Option DecSig) :=
  if rep.isBoolean then evalRepeatBool dec rep fuel st
  else some (evalRepeatUint dec rep st)

/-- A conversion-pair constant (`Constant` of `nodes.go`): an id token and
a value expression. -/
structure ConstantC where
  id : Tok
  value : Expr
  deriving DecidableEq, Repr

/-- The scan loop of `state.evalPoint` (`decode.go`).  An id equal to the
raw value returns the evaluated constant as a `Real`; when the raw value
falls strictly between the current id and the next one the source `break`s
out of the loop — the only statement under its `// linear interpolation`
comment — and the raw value is returned unchanged, exactly as when the
loop runs off the end. -/
def evalPointLoop (raw : Int) (v : RtValue) (st : DState) :
    List ConstantC → Outcome RtValue
  | [] => .ok v
  | c :: rest =>
    let cid := goParseIntLenient c.id.lit
    if raw = cid then
      match eval c.value st with
      | .panic => .panic
      | .error e => .error e
      | .ok val => .ok (.vreal v.valueId 0 none (asReal val))
    else
      match rest with
      | next :: _ =>
        if cid < raw ∧ raw < goParseIntLenient next.id.lit then .ok v
        else evalPointLoop raw v st rest
      | [] => .ok v

/-- `state.evalPoint` (`decode.go`): pointpair conversion of a decoded
value against the pair's constants. -/
def evalPoint (cs : List ConstantC) (v : RtValue) (st : DState) : Outcome RtValue :=
  evalPointLoop (asInt v) v st cs

/-- The keyword constant `kwLittle` (`dissect.go`). -/
def kwLittle : String := "little"

/-- `swapBytes` (`decode.go`): under little-endian, reverse the span only
when its byte length is even and at most 8; otherwise copy it unchanged. -/
def swapBytes (buf : List Nat) (e : String) : List Nat :=
  if e = kwLittle then
    if buf.length ≤ 8 ∧ buf.length % 2 = 0 then buf.reverse else buf
  else buf

/-- `numbytes` (`decode.go`): bytes spanned by a bit count, via Go's
truncated `%` and `/`. -/
def numbytes (bits : Int) : Int :=
  let n := 8 - (bits - 1).tmod 8
  (bits + n).tdiv 8

/-- The big-endian composition inside `btoi` (`decode.go`):
`u += uint64(buf[i]) << (8*(n-(i+1)))` over a `uint64` accumulator. -/
def beCompose : List Nat → Nat
  | [] => 0
  | b :: rest => (b % 256) * 2 ^ (8 * rest.length) + beCompose rest

/-- `btoi` (`decode.go`): compose the span, shift right by `uint64(shift)`
and mask with `uint64(mask)` (Go shifts of 64 or more clear the word). -/
def btoi (buf : List Nat) (shift mask : Int) : Nat :=
  Nat.land ((beCompose buf % 2 ^ 64) >>> toU64 shift) (toU64 mask)

/-- The `mask` computation of `decodeNumber` (`decode.go`): `1` for a
single bit, otherwise `(1 << bits) - 1` in Go `int` arithmetic (for
`bits = 64` the shift clears and the mask wraps to all ones). -/
def goMask (bits : Int) : Int :=
  if bits > 1 then wrap64 (wrap64 ((2 : Int) ^ bits.toNat % 2 ^ 64) - 1) else 1

/-- IEEE-754 binary64 bit pattern to its exact rational value
(`math.Float64frombits`); the non-finite patterns (exponent 2047) fall
outside the rational model and map to 0 — no claim exercises them. -/
def float64frombits (u : Nat) : Rat :=
  let sign : Nat := u / 2 ^ 63 % 2
  let ex : Nat := u / 2 ^ 52 % 2 ^ 11
  let frac : Nat := u % 2 ^ 52
  let mag : Rat :=
    if ex = 0 then (frac : Rat) / 2 ^ 52 * (2 : Rat) ^ (-(1022 : Int))
    else if ex = 2047 then 0
    else (1 + (frac : Rat) / 2 ^ 52) * (2 : Rat) ^ ((ex : Int) - 1023)
  if sign = 1 then -mag else mag

/-- A parameter declaration (`Parameter` of `nodes.go`), restricted to the
fields `decodeNumber` reads. -/
structure ParamC where
  id : Tok
  size : Tok
  kind : Tok
  endian : Tok
  deriving DecidableEq, Repr

/-- `Parameter.is()` (`nodes.go`): the kind tag, defaulting to `int`. -/
def paramIs (p : ParamC) : String :=
  if p.kind.lit = "uint" then "uint"
  else if p.kind.lit = "float" then "float"
  else if p.kind.lit = "string" then "string"
  else if p.kind.lit = "bytes" then "bytes"
  else "int"

/-- `state.decodeNumber` (`decode.go`): slice the spanning bytes, swap for
little-endian, compose, shift and mask to the exact bit window, and build
the typed value. -/
def decodeNumber (st : DState) (p : ParamC) (bits index offset : Int) : Outcome RtValue :=
  let need := numbytes bits
  let shift := 8 * need - (offset + bits)
  let mask := goMask bits
  if st.size.tdiv 8 < index + need then .error .shortBuffer
  else
    let span := (st.buffer.drop index.toNat).take need.toNat
    let dat := btoi (swapBytes span p.endian.lit) shift mask
    if paramIs p = "int" then .ok (.vint p.id.lit st.pos none (wrap64 dat))
    else if paramIs p = "uint" then .ok (.vuint p.id.lit st.pos none dat)
    else if paramIs p = "float" then .ok (.vreal p.id.lit st.pos none (float64frombits dat))
    else .error .unsupported

/-! ## Scanner pieces (`scan.go`)

The scanner state mirrors `Scanner`: the loaded buffer, the index of the
current rune (`pos`), the index of the rune after it (`next`), the one-rune
lookahead (`char`, with `EOF = -1` once the input is exhausted), and the
line/column bookkeeping.  The buffer holds the decoded runes as their code
points (`Int`); for the ASCII inputs at issue, byte indexing and rune
indexing coincide. -/

structure ScanState where
  buffer : List Int
  pos : Nat
  next : Nat
  char : Int
  line : Nat
  column : Nat
  seen : Nat
  deriving DecidableEq, Repr

/-- `Scanner.readRune` (`scan.go`): past the end of the buffer the lookahead
is pinned to `EOF` and nothing else moves; otherwise advance one rune and
update the line/column bookkeeping. -/
def readRune (s : ScanState) : ScanState :=
  if s.next ≥ s.buffer.length then { s with char := tEOF }
  else
    let r := s.buffer.getD s.next 0
    let s1 := { s with char := r, pos := s.next, next := s.next + 1 }
    if r = 10 then { s1 with line := s1.line + 1, seen := s.column, column := 0 }
    else { s1 with column := s1.column + 1 }

/-- `isBlank` (`scan.go`): space or tab. -/
def isBlankR (c : Int) : Bool := c = 32 || c = 9

/-- `Scanner.skipBlank` (`scan.go`), fuel-bounded (`none`: bound hit). -/
def skipBlank : Nat → ScanState → Option ScanState
  | 0, s => if isBlankR s.char then none else some s
  | f + 1, s => if isBlankR s.char then skipBlank f (readRune s) else some s

/-- Rune list to string, for the token literals the scanner slices out. -/
def stringOfRunes (rs : List Int) : String :=
  String.mk (rs.map (fun r => Char.ofNat r.toNat))

/-- The loop of `Scanner.scanText` (`scan.go`): `for s.char != quote {
s.readRune() }`.  Fuel bounds the unfolding; `none` means the loop has not
finished within the given fuel (it never tests for end of input). -/
def scanTextLoop : Nat → ScanState → Option ScanState
  | 0, _ => none
  | f + 1, s => if s.char = 34 then some s else scanTextLoop f (readRune s)

/-- `Scanner.scanText` (`scan.go`): step past the opening quote, loop to the
closing quote, slice the literal.  On success Go tags the token `Text`. -/
def scanText (f : Nat) (s : ScanState) : Option (String × ScanState) :=
  let s1 := readRune s
  let p0 := s1.pos
  match scanTextLoop f s1 with
  | none => none
  | some s2 => some (stringOfRunes ((s2.buffer.drop p0).take (s2.pos - p0)), s2)

/-- The loop of `Scanner.scanComment` (`scan.go`): `for s.char != newline {
s.readRune() }`, fuel-bounded like `scanTextLoop`. -/
def scanCommentLoop : Nat → ScanState → Option ScanState
  | 0, _ => none
  | f + 1, s => if s.char = 10 then some s else scanCommentLoop f (readRune s)

/-- `Scanner.scanComment` (`scan.go`): step past `#`, skip blanks, loop to
the newline, slice the comment text.  On success Go tags the token
`Comment`. -/
def scanComment (f : Nat) (s : ScanState) : Option (String × ScanState) :=
  match skipBlank f (readRune s) with
  | none => none
  | some s1 =>
    let p0 := s1.pos
    match scanCommentLoop f s1 with
    | none => none
    | some s2 => some (stringOfRunes ((s2.buffer.drop p0).take (s2.pos - p0)), s2)

/-! ## Parser pieces (`parse.go`)

The expression sub-grammar: a pratt parser over the token stream.  The
parser state is the two-token window `curr` / `peek` plus the not yet
consumed tokens; `nextToken` mirrors the single-frame behaviour of
`Parser.nextToken` (an exhausted frame keeps yielding `EOF` tokens; the
frame stack itself only matters for file inclusion).  All parse functions
are fuel-bounded; `fuelOut` marks the bound, which the theorems instantiate
high enough never to hit. -/

/-- The sentinel token an exhausted tokenizer keeps returning. -/
def eofTok : Tok := { lit := "", type := tEOF, pos := ⟨0, 0⟩ }

structure PState where
  curr : Tok
  peek : Tok
  rest : List Tok
  deriving DecidableEq, Repr

/-- `Parser.nextToken` (`parse.go`), single-frame. -/
def nextToken (p : PState) : PState :=
  match p.rest with
  | [] => { p with curr := p.peek, peek := eofTok }
  | t :: ts => { curr := p.peek, peek := t, rest := ts }

/-- `Parse` primes the window with two `nextToken` calls over a zero-valued
parser; `startP` does the same over a token list. -/
def startP (toks : List Tok) : PState :=
  nextToken (nextToken { curr := eofTok, peek := eofTok, rest := toks })

/-- The binding powers of `parse.go` (`bindLowest` ... `bindUnary`). -/
def bindLowest : Nat := 0
def bindAssign : Nat := 1
def bindCond : Nat := 2
def bindOr : Nat := 3
def bindAnd : Nat := 4
def bindBitOr : Nat := 5
def bindBitAnd : Nat := 6
def bindEq : Nat := 7
def bindRel : Nat := 8
def bindShift : Nat := 9
def bindSum : Nat := 10
def bindMul : Nat := 11
def bindUnary : Nat := 12

/-- `bindPower` (`parse.go`): the `bindings` table, defaulting to
`bindLowest`. -/
def bindPower (t : Tok) : Nat :=
  if t.type = tAssign then bindAssign
  else if t.type = tEqual ∨ t.type = tNotEq then bindEq
  else if t.type = tLesser ∨ t.type = tLessEq ∨ t.type = tGreater ∨ t.type = tGreatEq then bindRel
  else if t.type = tAnd then bindAnd
  else if t.type = tOr then bindOr
  else if t.type = tAdd ∨ t.type = tMin then bindSum
  else if t.type = tMul ∨ t.type = tDiv ∨ t.type = tModulo then bindMul
  else if t.type = tCond then bindCond
  else if t.type = tShiftLeft ∨ t.type = tShiftRight then bindShift
  else bindLowest

/-- Parser failures (`expectedError`, `unexpectedError`, plus the fuel
bound of the embedding). -/
inductive PErr where
  | unexpectedTok (t : Tok) : PErr
  | expectedForm (what : String) (t : Tok) : PErr
  | fuelOut : PErr
  deriving DecidableEq, Repr

/-- The `checkPeek` closure of `parseExpression` (`parse.go`): `]`,
newline, comment or `:` stop the loop. -/
def checkPeek (ty : Int) : Bool :=
  ty = 93 || ty = tNewline || ty = tComment || ty = 58

/-- The `isComparison` closure of `parseInfix` (`parse.go`). -/
def isComparisonOp (op : Int) : Bool :=
  op = tLesser || op = tGreater || op = tLessEq || op = tGreatEq

mutual

/-- `Parser.parseExpression` (`parse.go`): prefix, then the binding-power
loop, then the trailing `]` consumption. -/
def parseExpressionF : Nat → Nat → PState → Except PErr (Expr × PState)
  | 0, _, _ => .error .fuelOut
  | f + 1, pow, p =>
    match parsePrefixF f p with
    | .error e => .error e
    | .ok (expr, p1) =>
      match parseExprLoopF f pow expr p1 with
      | .error e => .error e
      | .ok (expr2, p2) =>
        if p2.peek.type = 93 then .ok (expr2, nextToken p2)
        else .ok (expr2, p2)

/-- The `for !checkPeek(p.peek.Type) && pow < bindPower(p.peek)` loop of
`parseExpression`, dispatching on `Cond` / `Assign` / infix. -/
def parseExprLoopF : Nat → Nat → Expr → PState → Except PErr (Expr × PState)
  | 0, _, _, _ => .error .fuelOut
  | f + 1, pow, expr, p =>
    if checkPeek p.peek.type ∨ ¬ pow < bindPower p.peek then .ok (expr, p)
    else
      let p1 := nextToken p
      let step :=
        if p1.curr.type = tCond then parseTernaryF f expr p1
        else if p1.curr.type = tAssign then parseAssignF f expr p1
        else parseInfixF f expr p1
      match step with
      | .error e => .error e
      | .ok (expr2, p2) => parseExprLoopF f pow expr2 p2

/-- `Parser.parsePrefix` (`parse.go`). -/
def parsePrefixF : Nat → PState → Except PErr (Expr × PState)
  | 0, _ => .error .fuelOut
  | f + 1, p =>
    if p.curr.type = tNot ∨ p.curr.type = tMin then
      let op := p.curr.type
      match parseExpressionF f bindUnary (nextToken p) with
      | .error e => .error e
      | .ok (right, p2) => .ok (.unary op right, p2)
    else if p.curr.type = 40 then
      match parseExpressionF f bindLowest (nextToken p) with
      | .error e => .error e
      | .ok (n, p2) =>
        if p2.peek.type ≠ 41 then .error (.expectedForm ")" p2.peek)
        else .ok (n, nextToken p2)
    else if p.curr.type = tInteger ∨ p.curr.type = tFloat ∨ p.curr.type = tBool ∨ p.curr.type = tText then
      .ok (.lit p.curr, p)
    else if p.curr.type = tIdent then
      if p.peek.type = 46 then
        let p1 := nextToken (nextToken p)
        if p1.curr.type ≠ tIdent then .error (.expectedForm "ident" p1.curr)
        else .ok (.member p.curr p1.curr, p1)
      else .ok (.ident p.curr, p)
    else if p.curr.type = tInternal then .ok (.ident p.curr, p)
    else .error (.unexpectedTok p.curr)

/-- `Parser.parseInfix` (`parse.go`): build the binary node, parse the right
side at the operator's power, and desugar a chained comparison — a
comparison operator followed by another comparison in `peek` — into a
logical `And` of the adjacent pairs. -/
def parseInfixF : Nat → Expr → PState → Except PErr (Expr × PState)
  | 0, _, _ => .error .fuelOut
  | f + 1, left, p =>
    let op := p.curr
    let pow := bindPower p.curr
    match parseExpressionF f pow (nextToken p) with
    | .error e => .error e
    | .ok (right, p2) =>
      if isComparisonOp op.type ∧ isComparisonOp p2.peek.type then
        match parseInfixF f right (nextToken p2) with
        | .error e => .error e
        | .ok (right2, p4) => .ok (.binary tAnd (.binary op.type left right) right2, p4)
      else .ok (.binary op.type left right, p2)

/-- `Parser.parseTernary` (`parse.go`). -/
def parseTernaryF : Nat → Expr → PState → Except PErr (Expr × PState)
  | 0, _, _ => .error .fuelOut
  | f + 1, left, p =>
    match parseExpressionF f bindLowest (nextToken p) with
    | .error e => .error e
    | .ok (csq, p2) =>
      let p3 := nextToken p2
      if p3.curr.type ≠ 58 then .error (.expectedForm ":" p3.curr)
      else
        match parseExpressionF f bindLowest (nextToken p3) with
        | .error e => .error e
        | .ok (alt, p5) => .ok (.ternary left csq alt, p5)

/-- `Parser.parseAssign` (`parse.go`): only an identifier may stand on the
left. -/
def parseAssignF : Nat → Expr → PState → Except PErr (Expr × PState)
  | 0, _, _ => .error .fuelOut
  | f + 1, left, p =>
    match parseExpressionF f bindLowest (nextToken p) with
    | .error e => .error e
    | .ok (right, p2) =>
      match left with
      | .ident idt => .ok (.assign idt right, p2)
      | _ => .error (.unexpectedTok p2.curr)

end


/-! ## Concrete fixtures used by the theorems below -/

/-- An identifier token. -/
def identTok (s : String) : Tok := { lit := s, type := tIdent, pos := ⟨1, 1⟩ }

/-- An operator token of the given kind. -/
def opTok (op : Int) : Tok := { lit := "", type := op, pos := ⟨1, 1⟩ }

def boolFalseTok : Tok := { lit := "false", type := tBool, pos := ⟨1, 1⟩ }
def boolTrueTok : Tok := { lit := "true", type := tBool, pos := ⟨1, 1⟩ }
def intTok3 : Tok := { lit := "3", type := tInteger, pos := ⟨1, 1⟩ }
def xTok : Tok := identTok "x"

/-- A fresh decoder state over an empty buffer. -/
def emptySt : DState :=
  { values := [], pos := 0, loop := 0, blocks := [], currentFile := "stream",
    buffer := [], now := 0 }

/-- A decoded field `x` (an `Int` of raw 7 at bit offset 3, no conversion
attached), and a state holding it. -/
def fieldX : RtValue := .vint "x" 3 none 7

def stX : DState := { emptySt with values := [fieldX] }

/-- The pointpair table `(0 ↦ 0, 10 ↦ 100)` (constants written as integer
literals; `evalPoint` converts the matched constant with `asReal` either
way). -/
def pointCs : List ConstantC :=
  [⟨{ lit := "0", type := tInteger, pos := ⟨1, 1⟩ }, .lit { lit := "0", type := tInteger, pos := ⟨1, 1⟩ }⟩,
   ⟨{ lit := "10", type := tInteger, pos := ⟨1, 1⟩ }, .lit { lit := "100", type := tInteger, pos := ⟨1, 1⟩ }⟩]

/-- A 3-byte input buffer `0x12 0x34 0x56` and a 24-bit little-endian
`uint` parameter over it. -/
def st24 : DState := { emptySt with buffer := [18, 52, 86] }

def p24le : ParamC :=
  { id := identTok "v", size := { lit := "24", type := tInteger, pos := ⟨1, 1⟩ },
    kind := { lit := "uint", type := tKeyword, pos := ⟨1, 1⟩ },
    endian := { lit := "little", type := tKeyword, pos := ⟨1, 1⟩ } }

/-- The scanner state at the moment `Scan` dispatches to `scanText` on the
input `"abc` — an opening quote that is never closed before end of input. -/
def untermTextState : ScanState :=
  { buffer := [34, 97, 98, 99], pos := 0, next := 1, char := 34,
    line := 1, column := 1, seen := 0 }

/-- The scanner state at the moment `Scan` dispatches to `scanComment` on
the input `#x` with no trailing newline. -/
def untermCommentState : ScanState :=
  { buffer := [35, 120], pos := 0, next := 1, char := 35,
    line := 1, column := 1, seen := 0 }

/-- An instrumented repeat body: each invocation bumps the bit cursor by
one and succeeds, so the final cursor counts the body executions.  It
stands for the `root.decodeBlock(dat)` closure of `evalRepeatUint`. -/
def countBody : DState → DState × Option DecSig :=
  fun st => ({ st with pos := st.pos + 1 }, none)

/-! ## Helper lemmas -/

theorem getD_mem_drop (l : List Int) (n : Nat) (h : n < l.length) :
    l.getD n 0 ∈ l.drop n := by
  rw [List.getD_eq_getElem l 0 h, List.drop_eq_getElem_cons h]
  exact List.mem_cons_self _ _

theorem mem_drop_succ (l : List Int) (n : Nat) (x : Int) (h : x ∈ l.drop (n + 1)) :
    x ∈ l.drop n := by
  have : l.drop (n + 1) = (l.drop n).drop 1 := by
    rw [List.drop_drop]
  rw [this] at h
  exact List.mem_of_mem_drop h

/-- `readRune` leaves the buffer untouched. -/
theorem readRune_buffer (s : ScanState) : (readRune s).buffer = s.buffer := by
  unfold readRune
  by_cases h : s.next ≥ s.buffer.length
  · simp [h]
  · simp [h]
    split <;> rfl

/-- Past the end of the buffer, `readRune` pins the lookahead to `EOF` and
does not move. -/
theorem readRune_at_end (s : ScanState) (h : s.next ≥ s.buffer.length) :
    readRune s = { s with char := tEOF } := by
  unfold readRune
  simp [h]

/-- Inside the buffer, `readRune` reads the rune under `next` and advances. -/
theorem readRune_in (s : ScanState) (h : s.next < s.buffer.length) :
    (readRune s).char = s.buffer.getD s.next 0 ∧ (readRune s).next = s.next + 1 := by
  unfold readRune
  have h' : ¬ s.next ≥ s.buffer.length := by omega
  simp [h']
  split <;> simp

/-- The `scanText` loop can never finish when no closing quote lies ahead:
the lookahead sticks at `EOF` and the loop spins until the fuel runs out. -/
theorem scanTextLoop_none (f : Nat) : ∀ (s : ScanState), s.char ≠ 34 →
    (∀ x ∈ s.buffer.drop s.next, x ≠ 34) → scanTextLoop f s = none := by
  induction f with
  | zero => intro s _ _; rfl
  | succ f ih =>
    intro s h1 h2
    show (if s.char = 34 then some s else scanTextLoop f (readRune s)) = none
    rw [if_neg h1]
    by_cases hle : s.next ≥ s.buffer.length
    · apply ih
      · rw [readRune_at_end s hle]
        show tEOF ≠ 34
        decide
      · rw [readRune_at_end s hle]
        exact h2
    · have hlt : s.next < s.buffer.length := by omega
      obtain ⟨hc, hn⟩ := readRune_in s hlt
      apply ih
      · rw [hc]
        exact h2 _ (getD_mem_drop s.buffer s.next hlt)
      · intro x hx
        rw [readRune_buffer, hn] at hx
        exact h2 _ (mem_drop_succ s.buffer s.next x hx)

/-- The `scanComment` loop can never finish when no newline lies ahead. -/
theorem scanCommentLoop_none (f : Nat) : ∀ (s : ScanState), s.char ≠ 10 →
    (∀ x ∈ s.buffer.drop s.next, x ≠ 10) → scanCommentLoop f s = none := by
  induction f with
  | zero => intro s _ _; rfl
  | succ f ih =>
    intro s h1 h2
    show (if s.char = 10 then some s else scanCommentLoop f (readRune s)) = none
    rw [if_neg h1]
    by_cases hle : s.next ≥ s.buffer.length
    · apply ih
      · rw [readRune_at_end s hle]
        show tEOF ≠ 10
        decide
      · rw [readRune_at_end s hle]
        exact h2
    · have hlt : s.next < s.buffer.length := by omega
      obtain ⟨hc, hn⟩ := readRune_in s hlt
      apply ih
      · rw [hc]
        exact h2 _ (getD_mem_drop s.buffer s.next hlt)
      · intro x hx
        rw [readRune_buffer, hn] at hx
        exact h2 _ (mem_drop_succ s.buffer s.next x hx)

/-- `skipBlank` is the identity on a non-blank lookahead, whatever the
fuel. -/
theorem skipBlank_not_blank (f : Nat) (s : ScanState) (h : isBlankR s.char = false) :
    skipBlank f s = some s := by
  cases f <;> simp [skipBlank, h]

/-- Running the instrumented body `n` times advances the cursor by `n`. -/
theorem evalRepeatUintLoop_count (n : Nat) : ∀ (st : DState),
    evalRepeatUintLoop countBody n (st, none) = ({ st with pos := st.pos + n }, none) := by
  induction n with
  | zero =>
    intro st
    simp [evalRepeatUintLoop]
  | succ n ih =>
    intro st
    show evalRepeatUintLoop countBody n ({ st with pos := st.pos + 1 }, none) = _
    rw [ih]
    have : st.pos + 1 + (n : Int) = st.pos + ((n : Int) + 1) := by ring
    simp [this]

/-! ## Claim theorems -/

/-- C1, counterexample.  The claim says `&&` short-circuits: `a && b` with
a falsy `a` returns the determined Boolean even when evaluating `b` alone
errors.  In the code `evalLogical` evaluates both operands first: with
`a = false` and `b` an undefined identifier the whole expression errors,
even though `a` alone is falsy and determines the result. -/
theorem evalLogical_short_circuit_cex :
    eval (.binary tAnd (.lit boolFalseTok) (.ident xTok)) emptySt = .error (.notDefined "x")
    ∧ eval (.lit boolFalseTok) emptySt = .ok (.vbool "anonymous" 0 none false)
    ∧ eval (.ident xTok) emptySt = .error (.notDefined "x") :=
  ⟨rfl, rfl, rfl⟩

/-- C1, amended.  Both operands of `&&` / `||` are always evaluated: an
error (or panic) from the right operand propagates even when the left
operand already determines the result, and only when both operands succeed
is the Boolean combination of their truth values returned. -/
theorem evalLogical_strict (op : Int) (l r : Expr) (st : DState) (lv : RtValue)
    (hop : op = tAnd ∨ op = tOr) (hl : eval l st = .ok lv) :
    (∀ e, eval r st = .error e → eval (.binary op l r) st = .error e)
    ∧ (eval r st = .panic → eval (.binary op l r) st = .panic)
    ∧ (∀ rv, eval r st = .ok rv →
        eval (.binary op l r) st
          = .ok (anonymousBool
              (if op = tAnd then asBool lv && asBool rv else asBool lv || asBool rv))) := by
  have hop1 : ¬ (op = tEqual ∨ op = tNotEq ∨ op = tLesser ∨ op = tLessEq ∨ op = tGreater ∨ op = tGreatEq) := by
    rcases hop with h | h <;> subst h <;> decide
  refine ⟨?_, ?_, ?_⟩
  · intro e he
    simp only [eval, if_neg hop1, if_pos hop, hl, he]
  · intro hp
    simp only [eval, if_neg hop1, if_pos hop, hl, hp]
  · intro rv hrv
    simp only [eval, if_neg hop1, if_pos hop, hl, hrv]
    by_cases h : op = tAnd <;> simp [h]

/-- C1, witness for the amended theorem at `false && x` over an empty
environment. -/
theorem evalLogical_strict_witness :
    eval (.binary tAnd (.lit boolFalseTok) (.ident xTok)) emptySt = .error (.notDefined "x") :=
  (evalLogical_strict tAnd (.lit boolFalseTok) (.ident xTok) emptySt
    (.vbool "anonymous" 0 none false) (Or.inl rfl) rfl).1 (.notDefined "x") rfl

/-- C2: evaluating the code at the failing input.  For the pointpair
`(0 ↦ 0, 10 ↦ 100)` an exact match converts (raw 0 ↦ Real 0, raw 10 ↦
Real 100) and a value beyond every pair comes back unchanged, but raw 5 —
strictly between the two ids — also comes back as the raw `Int`
unchanged: the bracketing branch of `evalPoint` holds only a `break`
under its `// linear interpolation` comment, so the interpolated
`Real 50` is never produced. -/
theorem evalPoint_between_returns_raw :
    evalPoint pointCs (.vint "t" 0 none 5) emptySt = .ok (.vint "t" 0 none 5)
    ∧ evalPoint pointCs (.vint "t" 0 none 0) emptySt = .ok (.vreal "t" 0 none 0)
    ∧ evalPoint pointCs (.vint "t" 0 none 10) emptySt = .ok (.vreal "t" 0 none 100)
    ∧ evalPoint pointCs (.vint "t" 0 none 20) emptySt = .ok (.vint "t" 0 none 20) :=
  ⟨rfl, rfl, rfl, rfl⟩

/-- C3: evaluating the code at the failing input.  Unary `!` returns
`anonymousBool(asBool(v))` — the truth value itself, not its negation:
`!true` is `true` and `!false` is `false`.  Moreover `asBool` has no
`*Real` case, so a non-zero Real is falsy, against the claim's truth
table. -/
theorem evalUnary_not_returns_truth :
    eval (.unary tNot (.lit boolTrueTok)) emptySt = .ok (anonymousBool true)
    ∧ eval (.unary tNot (.lit boolFalseTok)) emptySt = .ok (anonymousBool false)
    ∧ asBool (.vreal "r" 0 none 2) = false :=
  ⟨rfl, rfl, rfl⟩

/-- C4, counterexample.  The claim lists five member attributes with `len`
returning the bit length as an Int; the code's `evalMember` knows only
`raw`, `eng`, `id` and `pos`, so `x.len` falls into the `default` branch
and errors (no bit length is stored in the state's values at all). -/
theorem evalMember_len_cex :
    evalMember xTok (identTok "len") stX = .error (.unknownAttribute "len") :=
  rfl

/-- C4, amended.  For a field in scope, member access returns the raw
value for `raw`, the attached engineering value — `Null` when none is
attached — for `eng`, the dotted member expression rendered as a String
for `id`, and the bit offset as an Int for `pos`; any other attribute,
including `len`, is an error. -/
theorem evalMember_attrs (ref attr : Tok) (st : DState) (v : RtValue)
    (h : evalIdentifier ref st = .ok v) :
    (attr.lit = "raw" → evalMember ref attr st = .ok v)
    ∧ (attr.lit = "eng" → evalMember ref attr st = .ok v.engValue)
    ∧ (attr.lit = "id" →
        evalMember ref attr st = .ok (.vstr attr.lit 0 none (ref.lit ++ "." ++ attr.lit)))
    ∧ (attr.lit = "pos" → evalMember ref attr st = .ok (.vint attr.lit 0 none v.offset))
    ∧ (attr.lit ≠ "raw" → attr.lit ≠ "eng" → attr.lit ≠ "id" → attr.lit ≠ "pos" →
        evalMember ref attr st = .error (.unknownAttribute attr.lit)) := by
  refine ⟨?_, ?_, ?_, ?_, ?_⟩
  · intro h1; simp [evalMember, h, h1]
  · intro h1; simp [evalMember, h, h1]
  · intro h1; simp [evalMember, h, h1]
  · intro h1; simp [evalMember, h, h1]
  · intro h1 h2 h3 h4; simp [evalMember, h, h1, h2, h3, h4]

/-- C4, witness for the amended theorem: `x.pos` on the field `x` at bit
offset 3. -/
theorem evalMember_attrs_witness :
    evalIdentifier xTok stX = .ok fieldX
    ∧ evalMember xTok (identTok "pos") stX = .ok (.vint "pos" 0 none fieldX.offset) :=
  ⟨rfl, (evalMember_attrs xTok (identTok "pos") stX fieldX rfl).2.2.2.1 rfl⟩

/-- C5: a chained comparison of the comparison family parses to a logical
AND of the adjacent pairs — `a op1 b op2 c` becomes
`(a op1 b) && (b op2 c)` — and evaluating the parsed expression agrees,
on every state, with evaluating the desugared conjunction itself. -/
theorem chained_comparison_desugars (a b c : String) (op1 op2 : Int)
    (h1 : isComparisonOp op1 = true) (h2 : isComparisonOp op2 = true) :
    parseExpressionF 20 bindLowest
        (startP [identTok a, opTok op1, identTok b, opTok op2, identTok c])
      = .ok (.binary tAnd (.binary op1 (.ident (identTok a)) (.ident (identTok b)))
                          (.binary op2 (.ident (identTok b)) (.ident (identTok c))),
             { curr := identTok c, peek := eofTok, rest := [] })
    ∧ ∀ st : DState,
        (parseExpressionF 20 bindLowest
            (startP [identTok a, opTok op1, identTok b, opTok op2, identTok c])).map
          (fun ep => eval ep.1 st)
          = .ok (eval (.binary tAnd
              (.binary op1 (.ident (identTok a)) (.ident (identTok b)))
              (.binary op2 (.ident (identTok b)) (.ident (identTok c)))) st) := by
  simp only [isComparisonOp, Bool.or_eq_true, decide_eq_true_eq] at h1 h2
  rcases h1 with ((h1 | h1) | h1) | h1 <;> rcases h2 with ((h2 | h2) | h2) | h2 <;>
    subst h1 <;> subst h2 <;> exact ⟨rfl, fun st => rfl⟩

/-- C5, witness at `a < b < c`. -/
theorem chained_comparison_desugars_witness :
    isComparisonOp tLesser = true
    ∧ parseExpressionF 20 bindLowest
        (startP [identTok "a", opTok tLesser, identTok "b", opTok tLesser, identTok "c"])
      = .ok (.binary tAnd (.binary tLesser (.ident (identTok "a")) (.ident (identTok "b")))
                          (.binary tLesser (.ident (identTok "b")) (.ident (identTok "c"))),
             { curr := identTok "c", peek := eofTok, rest := [] }) :=
  ⟨rfl, (chained_comparison_desugars "a" "b" "c" tLesser tLesser rfl rfl).1⟩

/-- C6: for a repeat whose loop expression is not boolean-producing,
`decodeRepeat` routes to `evalRepeatUint`, the loop expression is
evaluated once (its single result fixes the count), and a body that always
succeeds is decoded exactly `asUint v` times — except that a zero count
decodes it exactly once.  The instrumented body counts its invocations in
the cursor. -/
theorem repeatUint_once_and_count (rep : Expr) (st : DState) (v : RtValue) (f : Nat)
    (hb : rep.isBoolean = false) (he : eval rep st = .ok v) :
    decodeRepeat f countBody rep st
      = some ({ st with pos := st.pos + ((if asUint v = 0 then 1 else asUint v : Nat) : Int) },
              none) := by
  simp [decodeRepeat, hb, evalRepeatUint, he, evalRepeatUintLoop_count]

/-- C6, witness: `repeat 3` over an empty state decodes the body three
times. -/
theorem repeatUint_once_and_count_witness :
    Expr.isBoolean (.lit intTok3) = false
    ∧ eval (.lit intTok3) emptySt = .ok (.vint "anonymous" 0 none 3)
    ∧ decodeRepeat 9 countBody (.lit intTok3) emptySt
        = some ({ emptySt with
                  pos := emptySt.pos +
                    ((if asUint (RtValue.vint "anonymous" 0 none 3) = 0 then 1
                      else asUint (RtValue.vint "anonymous" 0 none 3) : Nat) : Int) }, none) :=
  ⟨rfl, rfl, repeatUint_once_and_count (.lit intTok3) emptySt (.vint "anonymous" 0 none 3) 9 rfl rfl⟩

/-- C8: a `break` or `continue` statement ends the enclosing statement
list unconditionally.  Even when its predicate evaluates to false — so no
break/continue signal is raised and the result is a plain normal return —
the statements after it in the block list are never executed, whatever
they are. -/
theorem break_continue_end_block (e : Expr) (rest : List DNode) (st : DState) (v : RtValue)
    (he : eval e st = .ok v) (hv : isTrue v = false) :
    decodeNodes (.brkN e :: rest) st = (st, none)
    ∧ decodeNodes (.contN e :: rest) st = (st, none) := by
  constructor <;> simp [decodeNodes, decodeBreak, decodeContinue, he, hv]

/-- C8, witness: `break false` followed by a `let x = 3` leaves the state
untouched — the `let` after the break never runs. -/
theorem break_continue_end_block_witness :
    eval (.lit boolFalseTok) stX = .ok (.vbool "anonymous" 0 none false)
    ∧ isTrue (.vbool "anonymous" 0 none false) = false
    ∧ decodeNodes [.brkN (.lit boolFalseTok), .letN xTok (.assign xTok (.lit intTok3))] stX
        = (stX, none) :=
  ⟨rfl, rfl,
    (break_continue_end_block (.lit boolFalseTok) [.letN xTok (.assign xTok (.lit intTok3))]
      stX (.vbool "anonymous" 0 none false) rfl rfl).1⟩

/-- C9: little-endian byte swapping applies only to spans of even length
at most 8: an odd span (and any span longer than 8) is left in its
original big-endian byte order.  A 24-bit field spans `numbytes 24 = 3`
bytes, and decoding it little-endian over `0x12 0x34 0x56` yields
`0x123456` — the unswapped big-endian composition. -/
theorem swapBytes_little_endian_policy :
    (∀ buf : List Nat, buf.length % 2 = 1 → swapBytes buf kwLittle = buf)
    ∧ (∀ buf : List Nat, buf.length ≤ 8 → buf.length % 2 = 0 →
        swapBytes buf kwLittle = buf.reverse)
    ∧ (∀ buf : List Nat, 8 < buf.length → swapBytes buf kwLittle = buf)
    ∧ numbytes 24 = 3
    ∧ decodeNumber st24 p24le 24 0 0 = .ok (.vuint "v" 0 none 0x123456) := by
  refine ⟨?_, ?_, ?_, by rfl, by rfl⟩
  · intro buf h
    have hn : ¬ (buf.length ≤ 8 ∧ buf.length % 2 = 0) := by omega
    simp [swapBytes, hn]
  · intro buf h8 hev
    simp [swapBytes, h8, hev]
  · intro buf h8
    have hn : ¬ (buf.length ≤ 8 ∧ buf.length % 2 = 0) := by omega
    simp [swapBytes, hn]

/-- C9, witness: a 3-byte (24-bit) little-endian span stays unswapped. -/
theorem swapBytes_little_endian_policy_witness :
    ([18, 52, 86] : List Nat).length % 2 = 1
    ∧ swapBytes [18, 52, 86] kwLittle = [18, 52, 86] :=
  ⟨by decide, swapBytes_little_endian_policy.1 [18, 52, 86] (by decide)⟩

/-- C10, counterexample.  The claim says `divide` and `modulo` on `Int` /
`Uint` always return a value or an error, including a zero divisor; in the
code `Int.divide` runs `x.Raw /= asInt(v)` with no zero test, so a zero
converted divisor is a Go runtime panic — neither a value nor an error
return. -/
theorem divide_by_zero_panics_cex :
    divideV (.vint "a" 0 none 1) (.vint "b" 0 none 0) = .panic
    ∧ moduloV (.vint "a" 0 none 1) (.vint "b" 0 none 0) = .panic
    ∧ divideV (.vuint "a" 0 none 1) (.vuint "b" 0 none 0) = .panic :=
  ⟨rfl, rfl, rfl⟩

/-- C10, amended.  For an `Int` or `Uint` left operand and a numeric right
operand, `divide` and `modulo` return a value whenever the right operand's
converted integer value is non-zero, and panic (Go runtime division by
zero) when it is zero. -/
theorem divide_modulo_except_zero (id : String) (pos : Int) (eng : Option RtValue)
    (n : Int) (m : Nat) (r : RtValue) (hr : isNumericKind r = true) :
    (asInt r = 0 →
      divideV (.vint id pos eng n) r = .panic ∧ moduloV (.vint id pos eng n) r = .panic)
    ∧ (asInt r ≠ 0 →
      divideV (.vint id pos eng n) r = .ok (.vint id pos eng (wrap64 (n.tdiv (asInt r))))
      ∧ moduloV (.vint id pos eng n) r = .ok (.vint id pos eng (n.tmod (asInt r))))
    ∧ (asUint r = 0 →
      divideV (.vuint id pos eng m) r = .panic ∧ moduloV (.vuint id pos eng m) r = .panic)
    ∧ (asUint r ≠ 0 →
      divideV (.vuint id pos eng m) r = .ok (.vuint id pos eng (m / asUint r))
      ∧ moduloV (.vuint id pos eng m) r = .ok (.vuint id pos eng (m % asUint r))) := by
  refine ⟨?_, ?_, ?_, ?_⟩ <;> intro h <;> constructor <;>
    cases r <;> simp_all [divideV, moduloV, isCompatible, isNumericKind]

/-- C10, witness for the amended theorem: `7 / 2` and `7 % 2` on `Int`
values. -/
theorem divide_modulo_except_zero_witness :
    isNumericKind (RtValue.vint "b" 0 none 2) = true
    ∧ asInt (RtValue.vint "b" 0 none 2) ≠ 0
    ∧ divideV (.vint "a" 0 none 7) (.vint "b" 0 none 2)
        = .ok (.vint "a" 0 none (wrap64 ((7 : Int).tdiv (asInt (RtValue.vint "b" 0 none 2))))) :=
  ⟨rfl, by decide,
    ((divide_modulo_except_zero "a" 0 none 7 0 (.vint "b" 0 none 2) rfl).2.1 (by decide)).1⟩

/-- C7: evaluating the scanner at the failing inputs.  On the unterminated
string `"abc` (and on a line comment `#x` still open at end of input) the
scan loops never return, whatever the fuel: the lookahead is pinned at
`EOF`, which is never the closing quote (or newline), so producing the
next token does not terminate and no illegal token is returned. -/
theorem scanner_unterminated_diverges :
    ∀ f : Nat, scanText f untermTextState = none
      ∧ scanComment f untermCommentState = none := by
  intro f
  constructor
  · unfold scanText
    have h := scanTextLoop_none f (readRune untermTextState) (by decide) (by decide)
    simp [h]
  · unfold scanComment
    rw [skipBlank_not_blank f (readRune untermCommentState) (by decide)]
    have h := scanCommentLoop_none f (readRune untermCommentState) (by decide) (by decide)
    simp [h]

end Dissect
